import Mathlib

/-!
Shallow embedding of `src/main.cpp` from the pico-pio-isr repository.

The program has a single shared `volatile uint32_t irq_flags`, an interrupt
handler `simply_isr_handler` that reads the PIO interrupt-status register,
overwrites `irq_flags` with it and acknowledges the hardware by a
write-1-to-clear, and a driver loop that stimulates state machines 0..3 in
turn via `trigger_isr`, reads and resets the shared flag, and sleeps
1000 ms between channels.  Machine integers are modelled as `Nat` with
`% 2^32` where a 32-bit truncation happens; hardware and console effects
are modelled as explicit state and event traces.
-/

/-- The PIO block's hardware registers that the program touches: only the
raw interrupt-status register `irq` (`pio0_hw->irq`), a 32-bit
write-1-to-clear register. -/
structure PioHw where
  irq : Nat
  deriving Repr, DecidableEq

/-- The mutable state shared between the interrupt context and the main
context: the PIO hardware block and the `volatile uint32_t irq_flags`
shadow variable. -/
structure SysState where
  pio : PioHw
  irq_flags : Nat
  deriving Repr, DecidableEq

/-- `hw_clear_bits(addr, mask)` from the pico SDK: atomically performs
`*addr = *addr & ~mask` on a 32-bit register. -/
def hw_clear_bits (reg mask : Nat) : Nat :=
  reg &&& (mask ^^^ (2 ^ 32 - 1))

/-- `simply_isr_handler` from `main.cpp`: read `pio0_hw->irq` into the
32-bit `irq_flags`, then acknowledge by `hw_clear_bits(&pio0_hw->irq,
irq_flags)`. -/
def simply_isr_handler (s : SysState) : SysState :=
  -- irq_flags = pio0_hw->irq;  (assignment into a uint32_t)
  let flags := s.pio.irq % 2 ^ 32
  -- hw_clear_bits(&pio0_hw->irq, irq_flags);
  { pio := { irq := hw_clear_bits s.pio.irq flags }, irq_flags := flags }

/-- The hardware asserting interrupt bits: the PIO state machines OR the
mask `m` into the raw interrupt-status register. -/
def raise_mask (m : Nat) (s : SysState) : SysState :=
  { s with pio := { irq := s.pio.irq ||| m } }

/-- Console and FIFO events produced by the driver loop. -/
inductive Event where
  | put (sm word : Nat)
  | print_trigger (sm : Nat)
  | print_expected (v : Nat)
  | print_actual (v : Nat)
  | sleep (ms : Nat)
  deriving Repr, DecidableEq

/-- `trigger_isr(sm)` from `main.cpp`.  `intl` stands for the asynchronous
interrupt activity that happens between the blocking FIFO write and the
reads of `irq_flags` ("ISR will fire from the pio right here"): the
hardware raising bits and the handler being dispatched are outside the
main context, so they are passed in as a state transformer.  Returns the
state after the call together with the trace of events it produced. -/
def trigger_isr (intl : SysState → SysState) (sm : Nat) (s : SysState) :
    SysState × List Event :=
  -- printf("Triggering ISR from state machine %d\n", sm);
  -- pio_sm_put_blocking(pio0, sm, 1);
  -- (asynchronous interrupt delivery happens here)
  let s1 := intl s
  -- printf("Expected IRQ flags: 0x%08X\n", (1 << sm));
  -- printf("Actual IRQ Flags: 0x%08X\n", irq_flags);
  let actual := s1.irq_flags
  -- the four `if (irq_flags & PIO_SM_k_IRQ)` branches are empty
  -- irq_flags = 0;
  ({ s1 with irq_flags := 0 },
   [Event.print_trigger sm, Event.put sm 1,
    Event.print_expected ((1 <<< sm) % 2 ^ 32), Event.print_actual actual])

/-- Helper: a value below `2 ^ n` ANDed with its complement relative to the
`n`-bit mask is zero. -/
theorem land_xor_mask_self {x n : Nat} (hx : x < 2 ^ n) :
    x &&& (x ^^^ (2 ^ n - 1)) = 0 := by
  apply Nat.eq_of_testBit_eq
  intro i
  simp only [Nat.testBit_land, Nat.testBit_xor, Nat.testBit_two_pow_sub_one,
    Nat.zero_testBit]
  by_cases hi : i < n
  · simp [hi, Bool.and_not_self]
  · have : x < 2 ^ i := lt_of_lt_of_le hx (Nat.pow_le_pow_right (by norm_num) (le_of_not_lt hi))
    simp [Nat.testBit_eq_false_of_lt this]

/-- Helper: after the handler runs on a well-formed 32-bit status register,
the hardware register is fully cleared. -/
theorem simply_isr_handler_clears_hw {s : SysState} (h : s.pio.irq < 2 ^ 32) :
    (simply_isr_handler s).pio.irq = 0 := by
  simp only [simply_isr_handler, hw_clear_bits, Nat.mod_eq_of_lt h]
  exact land_xor_mask_self h

/-- Helper: the handler records exactly the status value it read. -/
theorem simply_isr_handler_flags {s : SysState} (h : s.pio.irq < 2 ^ 32) :
    (simply_isr_handler s).irq_flags = s.pio.irq := by
  simp only [simply_isr_handler]
  exact Nat.mod_eq_of_lt h

/-- The synchronized interrupt delivery of the spec's P2 scenario: the
hardware raises bit `k` of the status register and the handler is
dispatched, all strictly before the main context reads `irq_flags`. -/
def sync_delivery (k : Nat) (s : SysState) : SysState :=
  simply_isr_handler (raise_mask (1 <<< k) s)

/-- One iteration of `main`'s `while (true)` body: trigger state machines
0..3 in order with `sleep_ms(1000)` after each.  `intl` gives the
asynchronous interrupt activity seen by each `trigger_isr` call. -/
def loop_body (intl : Nat → SysState → SysState) (s : SysState) :
    SysState × List Event :=
  let r0 := trigger_isr (intl 0) 0 s
  let r1 := trigger_isr (intl 1) 1 r0.1
  let r2 := trigger_isr (intl 2) 2 r1.1
  let r3 := trigger_isr (intl 3) 3 r2.1
  (r3.1,
   r0.2 ++ [Event.sleep 1000] ++ r1.2 ++ [Event.sleep 1000] ++
   r2.2 ++ [Event.sleep 1000] ++ r3.2 ++ [Event.sleep 1000])

/-- The statements of `main`'s loop body, in source order. -/
inductive Stmt where
  | trigger (sm : Nat)
  | sleepMs (ms : Nat)
  deriving Repr, DecidableEq

/-- The body of `while (true)` in `main`, as a statement list. -/
def loop_program : List Stmt :=
  [Stmt.trigger 0, Stmt.sleepMs 1000, Stmt.trigger 1, Stmt.sleepMs 1000,
   Stmt.trigger 2, Stmt.sleepMs 1000, Stmt.trigger 3, Stmt.sleepMs 1000]

/-- Effect of one statement on the shared state. -/
def exec_stmt (intl : Nat → SysState → SysState) : Stmt → SysState → SysState
  | Stmt.trigger sm, s => (trigger_isr (intl sm) sm s).1
  | Stmt.sleepMs _, s => s

/-- Control state of `main`: the next statement of the loop body to run,
plus the shared state. -/
structure MainState where
  pc : Nat
  sys : SysState
  deriving Repr, DecidableEq

/-- Small-step semantics of `main`'s loop: execute the statement at `pc`
and advance, wrapping to the top of the body after the last statement
(the loop is `while (true)` with no `break` or `return`).  `none` models
`main` returning, which happens only if `pc` falls outside the body. -/
def main_step (intl : Nat → SysState → SysState) (m : MainState) :
    Option MainState :=
  match loop_program[m.pc]? with
  | some st => some { pc := (m.pc + 1) % loop_program.length,
                      sys := exec_stmt intl st m.sys }
  | none => none

/-- `n` small steps of `main`'s loop from state `m`. -/
def main_run (intl : Nat → SysState → SysState) (m : MainState) :
    Nat → Option MainState
  | 0 => some m
  | n + 1 =>
    match main_run intl m n with
    | some m' => main_step intl m'
    | none => none

/-- Startup events of `load_pio_programs`. -/
inductive LoadEvent where
  | add_program
  | program_init (sm offset : Nat)
  deriving Repr, DecidableEq

/-- `load_pio_programs` from `main.cpp`: `pio_add_program` is called once
and returns a dynamically chosen `offset`; then
`simply_isr_program_init(pio, k, offset)` runs for k = 0,1,2,3 with that
same offset.  The trace is a function of whatever offset the SDK's
allocator returned. -/
def load_pio_programs (offset : Nat) : List LoadEvent :=
  [LoadEvent.add_program,
   LoadEvent.program_init 0 offset, LoadEvent.program_init 1 offset,
   LoadEvent.program_init 2 offset, LoadEvent.program_init 3 offset]

/-- Recognizer for the program-load call. -/
def LoadEvent.isAdd : LoadEvent → Bool
  | LoadEvent.add_program => true
  | _ => false

/-- Arguments of a state-machine initialization call, if any. -/
def LoadEvent.initArgs : LoadEvent → Option (Nat × Nat)
  | LoadEvent.program_init sm off => some (sm, off)
  | _ => none

/-- Core-side interrupt configuration for `PIO0_IRQ_0`: whether a handler
is registered and whether the line is enabled. -/
structure IrqCtl where
  handler_installed : Bool
  irq_enabled : Bool
  deriving Repr, DecidableEq

/-- `irq_set_exclusive_handler(PIO0_IRQ_0, simply_isr_handler)`. -/
def irq_set_exclusive_handler (c : IrqCtl) : IrqCtl :=
  { c with handler_installed := true }

/-- `irq_set_enabled(PIO0_IRQ_0, en)`. -/
def irq_set_enabled (c : IrqCtl) (en : Bool) : IrqCtl :=
  { c with irq_enabled := en }

/-- `enable_pio_isrs` from `main.cpp`: install the handler, then enable
the interrupt. -/
def enable_pio_isrs (c : IrqCtl) : IrqCtl :=
  irq_set_enabled (irq_set_exclusive_handler c) true

/-- The sequence of core-side configurations passed through while
`enable_pio_isrs` runs: before, between the two calls, and after. -/
def enable_pio_isrs_states (c : IrqCtl) : List IrqCtl :=
  [c, irq_set_exclusive_handler c,
   irq_set_enabled (irq_set_exclusive_handler c) true]

/-- Recognizer for FIFO-stimulus events. -/
def Event.isPut : Event → Bool
  | Event.put _ _ => true
  | _ => false

/-- Recognizer for the events claim P5 orders: FIFO stimuli and delays. -/
def Event.isStimOrDelay : Event → Bool
  | Event.put _ _ => true
  | Event.sleep _ => true
  | _ => false

/-- Claim C1: if the hardware interrupt for channel `k` (k < 4) is
delivered and serviced strictly before the driver loop reads the shared
flags, the logged expected and actual values both equal exactly
`1 <<< k`, with no other bits set. -/
theorem C1_sync_single_bit (k : Nat) (s : SysState) (hk : k < 4)
    (h0 : s.pio.irq = 0) :
    (trigger_isr (sync_delivery k) k s).2 =
      [Event.print_trigger k, Event.put k 1,
       Event.print_expected (1 <<< k), Event.print_actual (1 <<< k)] := by
  have hk3 : k ≤ 3 := by omega
  have hlt : (1 <<< k) < 2 ^ 32 := by
    rw [Nat.shiftLeft_eq, one_mul]
    exact lt_of_le_of_lt (Nat.pow_le_pow_right (by norm_num) hk3)
      (by norm_num)
  have hmod : (1 <<< k) % 2 ^ 32 = 1 <<< k := Nat.mod_eq_of_lt hlt
  obtain ⟨⟨hw⟩, fl⟩ := s
  simp only at h0
  subst h0
  show [Event.print_trigger k, Event.put k 1,
        Event.print_expected ((1 <<< k) % 2 ^ 32),
        Event.print_actual ((0 ||| 1 <<< k) % 2 ^ 32)] = _
  rw [Nat.zero_or, hmod]

/-- Witness for C1 at channel 2: both logged values are `0x00000004` in
the synchronized scenario. -/
theorem C1_witness :
    (trigger_isr (sync_delivery 2) 2
        { pio := { irq := 0 }, irq_flags := 0 }).2 =
      [Event.print_trigger 2, Event.put 2 1,
       Event.print_expected 4, Event.print_actual 4] :=
  (C1_sync_single_bit 2 { pio := { irq := 0 }, irq_flags := 0 }
    (by decide) rfl).trans (by decide)

/-- Claim C2: after the handler runs, the hardware pending bit of every
channel whose bit was set in the status value the handler read is 0. -/
theorem C2_ack_clears_serviced (s : SysState) (k : Nat)
    (hw : s.pio.irq < 2 ^ 32)
    (_hset : ((simply_isr_handler s).irq_flags).testBit k = true) :
    (simply_isr_handler s).pio.irq.testBit k = false := by
  rw [simply_isr_handler_clears_hw hw]
  exact Nat.zero_testBit k

/-- Witness for C2: with bit 2 pending, the hardware pending bit 2 is 0
after the handler runs. -/
theorem C2_witness :
    (simply_isr_handler
        { pio := { irq := 4 }, irq_flags := 0 }).pio.irq.testBit 2 = false :=
  C2_ack_clears_serviced { pio := { irq := 4 }, irq_flags := 0 } 2
    (by norm_num) (by decide)

/-- Claim C3: the handler overwrites the shared flags with exactly the
bit-set it read.  Starting from a quiescent register, if an interrupt with
mask `m1` is serviced and then one with mask `m2` is serviced before the
shared value is read, the shared value equals `m2` alone — for any prior
shared-flags value and any `m1`, never an OR accumulation. -/
theorem C3_last_write_wins (s : SysState) (m1 m2 : Nat)
    (h0 : s.pio.irq = 0) (h1 : m1 < 2 ^ 32) (h2 : m2 < 2 ^ 32) :
    (simply_isr_handler (raise_mask m2
      (simply_isr_handler (raise_mask m1 s)))).irq_flags = m2 := by
  have hA : (simply_isr_handler (raise_mask m1 s)).pio.irq = 0 := by
    apply simply_isr_handler_clears_hw
    simpa [raise_mask, h0] using h1
  have hB : (raise_mask m2 (simply_isr_handler (raise_mask m1 s))).pio.irq
      = m2 := by
    show (simply_isr_handler (raise_mask m1 s)).pio.irq ||| m2 = m2
    rw [hA, Nat.zero_or]
  have hC : (raise_mask m2 (simply_isr_handler (raise_mask m1 s))).pio.irq
      < 2 ^ 32 := by rw [hB]; exact h2
  rw [simply_isr_handler_flags hC, hB]

/-- Witness for C3: prior flags 5, first interrupt mask 1, second mask 4:
the shared value afterwards is 4, not an OR with 1 or 5. -/
theorem C3_witness :
    (simply_isr_handler (raise_mask 4
      (simply_isr_handler (raise_mask 1
        { pio := { irq := 0 }, irq_flags := 5 })))).irq_flags = 4 :=
  C3_last_write_wins { pio := { irq := 0 }, irq_flags := 5 } 1 4 rfl
    (by norm_num) (by norm_num)

/-- Claim C4: after `trigger_isr` completes its reset step
(`irq_flags = 0;`), the shared flags value is exactly 0, for every prior
state and every interleaved interrupt activity. -/
theorem C4_reset_clears (intl : SysState → SysState) (sm : Nat)
    (s : SysState) :
    (trigger_isr intl sm s).1.irq_flags = 0 := rfl

/-- Claim C5: over one full cycle of the driver loop, the channels are
stimulated in the fixed order 0, 1, 2, 3 with exactly one 1000 ms delay
between consecutive stimulations, for any interrupt interleaving and any
starting state. -/
theorem C5_rotation_order (intl : Nat → SysState → SysState)
    (s : SysState) :
    (loop_body intl s).2.filter Event.isStimOrDelay =
      [Event.put 0 1, Event.sleep 1000, Event.put 1 1, Event.sleep 1000,
       Event.put 2 1, Event.sleep 1000, Event.put 3 1, Event.sleep 1000] :=
  rfl

/-- Claim C6: the loader performs exactly one program-load obtaining a
dynamic offset, and initializes exactly four state machines with distinct
indices 0, 1, 2, 3, each given that identical offset. -/
theorem C6_loader (offset : Nat) :
    ((load_pio_programs offset).filter LoadEvent.isAdd).length = 1 ∧
    (load_pio_programs offset).filterMap LoadEvent.initArgs =
      [(0, offset), (1, offset), (2, offset), (3, offset)] ∧
    (((load_pio_programs offset).filterMap LoadEvent.initArgs).map
      Prod.fst).Nodup := by
  refine ⟨rfl, rfl, ?_⟩
  show ([0, 1, 2, 3] : List Nat).Nodup
  decide

/-- Claim C7: during interrupt registration the handler is installed
strictly before the line is enabled: provided the interrupt starts
disabled, at no intermediate point of `enable_pio_isrs` is the interrupt
enabled while no handler is registered. -/
theorem C7_handler_before_enable (c : IrqCtl) (h0 : c.irq_enabled = false) :
    ∀ x ∈ enable_pio_isrs_states c,
      x.irq_enabled = true → x.handler_installed = true := by
  intro x hx he
  simp only [enable_pio_isrs_states, List.mem_cons,
    List.not_mem_nil, or_false] at hx
  rcases hx with rfl | rfl | rfl
  · rw [h0] at he; cases he
  · rfl
  · rfl

/-- Witness for C7: from the reset configuration, the final state of
`enable_pio_isrs` has the handler installed. -/
theorem C7_witness :
    (irq_set_enabled (irq_set_exclusive_handler
        { handler_installed := false, irq_enabled := false })
      true).handler_installed = true :=
  C7_handler_before_enable
    { handler_installed := false, irq_enabled := false } rfl _
    (by decide) rfl

/-- Helper: advancing one statement from a program counter inside the loop
body succeeds and lands back inside the loop body. -/
theorem main_step_progress (intl : Nat → SysState → SysState)
    (m : MainState) (h : m.pc < loop_program.length) :
    ∃ m', main_step intl m = some m' ∧ m'.pc < loop_program.length := by
  refine ⟨{ pc := (m.pc + 1) % loop_program.length,
            sys := exec_stmt intl (loop_program.get ⟨m.pc, h⟩) m.sys },
          ?_, ?_⟩
  · unfold main_step
    rw [List.getElem?_eq_getElem h]
    rfl
  · exact Nat.mod_lt _ (by decide)

/-- Helper: every finite run of `main`'s loop from the top of the body
reaches a live state with the program counter still inside the body. -/
theorem main_run_some (intl : Nat → SysState → SysState) (s : SysState)
    (n : Nat) :
    ∃ m', main_run intl { pc := 0, sys := s } n = some m' ∧
      m'.pc < loop_program.length := by
  induction n with
  | zero =>
    refine ⟨{ pc := 0, sys := s }, rfl, ?_⟩
    show (0 : Nat) < loop_program.length
    decide
  | succ n ih =>
    obtain ⟨m', hm, hpc⟩ := ih
    obtain ⟨m'', hstep, hpc'⟩ := main_step_progress intl m' hpc
    exact ⟨m'', by simp [main_run, hm, hstep], hpc'⟩

/-- Claim C8: the driver loop runs forever: after any number of steps the
loop has not reached the terminated state, for any interleaving and any
starting shared state. -/
theorem C8_loop_never_returns (intl : Nat → SysState → SysState)
    (s : SysState) (n : Nat) :
    (main_run intl { pc := 0, sys := s } n).isSome = true := by
  obtain ⟨m', hm, _⟩ := main_run_some intl s n
  rw [hm]; rfl

/-- Claim C9: each driver-loop iteration sends exactly one stimulus word
to each channel 0..3, and the word is always the constant 1. -/
theorem C9_one_stimulus_word_one (intl : Nat → SysState → SysState)
    (s : SysState) :
    (loop_body intl s).2.filter Event.isPut =
      [Event.put 0 1, Event.put 1 1, Event.put 2 1, Event.put 3 1] := rfl

/-- Claim C10: the handler's acknowledgment clears only the bits present
in the snapshot it just recorded: any hardware pending bit not set in
that snapshot keeps its prior value. -/
theorem C10_ack_frame (s : SysState) (i : Nat) (hw : s.pio.irq < 2 ^ 32)
    (hbit : ((simply_isr_handler s).irq_flags).testBit i = false) :
    (simply_isr_handler s).pio.irq.testBit i = s.pio.irq.testBit i := by
  have hf := simply_isr_handler_flags hw
  rw [hf] at hbit
  rw [simply_isr_handler_clears_hw hw, Nat.zero_testBit, hbit]

/-- Witness for C10: with only bit 2 pending, bit 0 is absent from the
snapshot and its hardware pending value (0) is unchanged by the handler. -/
theorem C10_witness :
    (simply_isr_handler
        { pio := { irq := 4 }, irq_flags := 0 }).pio.irq.testBit 0 =
      ({ pio := { irq := 4 }, irq_flags := 0 } : SysState).pio.irq.testBit 0 :=
  C10_ack_frame { pio := { irq := 4 }, irq_flags := 0 } 0 (by norm_num)
    (by decide)
